import Mathlib

/-!
# Verification of the almatoolkit rate-limited batch subsystem

This development embeds, in Lean 4, the parts of the `almatoolkit`
command-line tool that its design specification makes claims about:

* the rate-limited concurrent batch executor of the API client
  (Rate Budget Tracker, Single-Call Invoker, Concurrent Batch Executor,
  Access Checker) — the client package itself is not part of the
  source tree given here, so those components are modelled from the
  specification text, as indicated by doc comments starting with
  `Modelled from the spec:`;
* the `main` entry point control flow (`main.go`);
* the `items-cancel-requests` subcommand `Run` function
  (package `cancelrequests`), embedded faithfully from the source.

Concurrency in the Go code is embedded by collapsing each batch run to
an admission sequence: the executor model checks cancellation and the
budget threshold before each admitted item, exactly as the spec
describes the per-worker admission check.
-/

namespace AlmaToolkit

/-! ## Concurrent Batch Executor (modelled from the spec, §4.1–4.3) -/

/-- Modelled from the spec: one unit of work submitted to the Concurrent
Batch Executor.  The per-item operation is abstracted by its observable
effect: the decoded value or the per-item error it produces, and the
remaining-budget figure the remote service reports once the item's
call(s) complete (which the Single-Call Invoker feeds to
`Tracker.Update`). -/
structure BatchOp (α : Type) where
  result : Except String α
  reportedBudget : Int

/-- Modelled from the spec: the aggregate a batch run hands back to the
caller — successes, failures, and the items never attempted because
admission halted.  Each entry is tagged with the submission index of
the item that produced it. -/
structure BatchAggregate (α : Type) where
  successes : List (Nat × α)
  failures : List (Nat × String)
  unattempted : List Nat
  deriving DecidableEq

/-- Modelled from the spec: the admission loop of the Concurrent Batch
Executor, processing the items from submission index `i` onward with
the tracker currently reading `budget`.  Before each item it checks
(a) whether the context has been cancelled and (b) whether the tracked
remaining budget has fallen below the configured threshold; either
condition stops all further admission and reports every remaining item
as unattempted.  An admitted item runs to completion, its outcome is
recorded as a success or a failure, and the tracker is updated to the
budget value reported for that item. -/
def runFrom (threshold : Int) (cancelled : Nat → Bool) (α : Type) :
    Nat → Int → List (BatchOp α) → BatchAggregate α
  | _, _, [] => ⟨[], [], []⟩
  | i, budget, op :: rest =>
    if cancelled i = true ∨ budget < threshold then
      ⟨[], [], List.range' i (op :: rest).length⟩
    else
      let agg := runFrom threshold cancelled α (i + 1) op.reportedBudget rest
      match op.result with
      | .ok v => ⟨(i, v) :: agg.successes, agg.failures, agg.unattempted⟩
      | .error e => ⟨agg.successes, (i, e) :: agg.failures, agg.unattempted⟩

/-- Modelled from the spec: `Run(items, ctx)` of the Concurrent Batch
Executor — process the whole submitted sequence starting from the
initial tracker value. -/
def batchRun (threshold : Int) (initialBudget : Int) (cancelled : Nat → Bool)
    {α : Type} (items : List (BatchOp α)) : BatchAggregate α :=
  runFrom threshold cancelled α 0 initialBudget items

/-- An item whose operation fails. -/
def opFails {α : Type} (op : BatchOp α) : Bool :=
  match op.result with
  | .ok _ => false
  | .error _ => true

/-- The submission indices recorded across the three aggregate
collections, in the order they appear. -/
def BatchAggregate.indices {α : Type} (agg : BatchAggregate α) : List Nat :=
  agg.successes.map Prod.fst ++ agg.failures.map Prod.fst ++ agg.unattempted

theorem runFrom_halted {α : Type} (threshold : Int) (cancelled : Nat → Bool)
    (i : Nat) (budget : Int) (ops : List (BatchOp α))
    (h : cancelled i = true ∨ budget < threshold) :
    runFrom threshold cancelled α i budget ops = ⟨[], [], List.range' i ops.length⟩ := by
  cases ops with
  | nil => simp [runFrom]
  | cons op rest => simp [runFrom, h]

theorem runFrom_indices_perm {α : Type} (threshold : Int) (cancelled : Nat → Bool)
    (ops : List (BatchOp α)) : ∀ (i : Nat) (budget : Int),
    (runFrom threshold cancelled α i budget ops).indices.Perm (List.range' i ops.length) := by
  induction ops with
  | nil => intro i budget; simp [runFrom, BatchAggregate.indices]
  | cons op rest ih =>
    intro i budget
    by_cases h : cancelled i = true ∨ budget < threshold
    · rw [runFrom_halted threshold cancelled i budget _ h]
      simp [BatchAggregate.indices]
    · simp only [List.length_cons]
      rw [List.range'_succ]
      simp only [runFrom, if_neg h]
      cases hr : op.result with
      | ok v =>
        simp only [BatchAggregate.indices, List.map_cons, List.cons_append]
        exact (ih (i + 1) op.reportedBudget).cons i
      | error e =>
        simp only [BatchAggregate.indices, List.map_cons]
        refine List.Perm.trans ?_ ((ih (i + 1) op.reportedBudget).cons i)
        exact List.Perm.append_right _ List.perm_middle

theorem runFrom_no_halt {α : Type} (threshold : Int) (cancelled : Nat → Bool)
    (ops : List (BatchOp α)) : ∀ (i : Nat) (budget : Int),
    (∀ j, cancelled j = false) → threshold ≤ budget →
    (∀ op ∈ ops, threshold ≤ op.reportedBudget) →
    (runFrom threshold cancelled α i budget ops).unattempted = [] := by
  induction ops with
  | nil => intro i budget _ _ _; simp [runFrom]
  | cons op rest ih =>
    intro i budget hc hb hops
    have hnot : ¬(cancelled i = true ∨ budget < threshold) := by
      rw [hc i]; simp; omega
    simp only [runFrom, if_neg hnot]
    have hrest := ih (i + 1) op.reportedBudget hc
      (hops op (List.mem_cons_self op rest))
      (fun o ho => hops o (List.mem_cons_of_mem op ho))
    cases hr : op.result with
    | ok v => simpa using hrest
    | error e => simpa using hrest

theorem runFrom_counts {α : Type} (threshold : Int) (cancelled : Nat → Bool)
    (ops : List (BatchOp α)) : ∀ (i : Nat) (budget : Int),
    (∀ j, cancelled j = false) → threshold ≤ budget →
    (∀ op ∈ ops, threshold ≤ op.reportedBudget) →
    (runFrom threshold cancelled α i budget ops).failures.length = ops.countP opFails ∧
    (runFrom threshold cancelled α i budget ops).successes.length =
      ops.countP (fun op => !opFails op) := by
  induction ops with
  | nil => intro i budget _ _ _; simp [runFrom]
  | cons op rest ih =>
    intro i budget hc hb hops
    have hnot : ¬(cancelled i = true ∨ budget < threshold) := by
      rw [hc i]; simp; omega
    simp only [runFrom, if_neg hnot]
    have hrest := ih (i + 1) op.reportedBudget hc
      (hops op (List.mem_cons_self op rest))
      (fun o ho => hops o (List.mem_cons_of_mem op ho))
    cases hr : op.result with
    | ok v =>
      have hf : opFails op = false := by simp [opFails, hr]
      simp [List.countP_cons, hf, hrest.1, hrest.2]
    | error e =>
      have hf : opFails op = true := by simp [opFails, hr]
      simp [List.countP_cons, hf, hrest.1, hrest.2]

/-- C1: for every batch run, the submission indices recorded in the
successes, the failures and the unattempted report together form a
permutation of the submitted index range (so every submitted item is
counted in exactly one of the three categories and the three counts sum
to the number of submitted items); and whenever the tracked budget
never drops below the threshold and no cancellation occurs, the
unattempted count is `0` and successes plus failures cover all
submitted items. -/
theorem c1_batch_partition (threshold initialBudget : Int) (cancelled : Nat → Bool)
    {α : Type} (items : List (BatchOp α)) :
    (batchRun threshold initialBudget cancelled items).indices.Perm
      (List.range items.length) ∧
    (batchRun threshold initialBudget cancelled items).successes.length +
      (batchRun threshold initialBudget cancelled items).failures.length +
      (batchRun threshold initialBudget cancelled items).unattempted.length =
      items.length ∧
    ((∀ j, cancelled j = false) → threshold ≤ initialBudget →
      (∀ op ∈ items, threshold ≤ op.reportedBudget) →
      (batchRun threshold initialBudget cancelled items).unattempted = [] ∧
      (batchRun threshold initialBudget cancelled items).successes.length +
        (batchRun threshold initialBudget cancelled items).failures.length =
        items.length) := by
  have hperm := runFrom_indices_perm threshold cancelled items 0 initialBudget
  have hlen := hperm.length_eq
  simp only [BatchAggregate.indices, List.length_append, List.length_map,
    List.length_range'] at hlen
  refine ⟨?_, by simpa [batchRun] using hlen, ?_⟩
  · rw [List.range_eq_range']
    exact hperm
  · intro hc hb hops
    have hu := runFrom_no_halt threshold cancelled items 0 initialBudget hc hb hops
    refine ⟨hu, ?_⟩
    simp only [batchRun] at hu ⊢
    rw [hu] at hlen
    simpa using hlen

/-- Witness for C1 at a concrete three-item batch with ample budget. -/
theorem c1_batch_partition_witness :
    (batchRun 5 100 (fun _ => false)
      [BatchOp.mk (Except.ok 1) 50, BatchOp.mk (Except.error "e") 50,
       BatchOp.mk (Except.ok 2) 50]).unattempted = [] ∧
    (batchRun 5 100 (fun _ => false)
      [BatchOp.mk (Except.ok 1) 50, BatchOp.mk (Except.error "e") 50,
       BatchOp.mk (Except.ok 2) 50]).successes.length +
    (batchRun 5 100 (fun _ => false)
      [BatchOp.mk (Except.ok 1) 50, BatchOp.mk (Except.error "e") 50,
       BatchOp.mk (Except.ok 2) 50]).failures.length = 3 :=
  (c1_batch_partition 5 100 (fun _ => false)
    [BatchOp.mk (Except.ok 1) 50, BatchOp.mk (Except.error "e") 50,
     BatchOp.mk (Except.ok 2) 50]).2.2
    (fun _ => rfl) (by decide) (by decide)

/-- C2: a per-item failure never aborts the batch: whenever the budget
stays at or above the threshold and no cancellation occurs, the run
attempts every item (unattempted is empty, i.e. the batch completes),
records exactly the failing items in the failures aggregate and exactly
the succeeding items in the successes aggregate. -/
theorem c2_fail_soft (threshold initialBudget : Int) (cancelled : Nat → Bool)
    {α : Type} (items : List (BatchOp α))
    (hc : ∀ j, cancelled j = false) (hb : threshold ≤ initialBudget)
    (hops : ∀ op ∈ items, threshold ≤ op.reportedBudget) :
    (batchRun threshold initialBudget cancelled items).unattempted = [] ∧
    (batchRun threshold initialBudget cancelled items).failures.length =
      items.countP opFails ∧
    (batchRun threshold initialBudget cancelled items).successes.length =
      items.countP (fun op => !opFails op) := by
  have hu := runFrom_no_halt threshold cancelled items 0 initialBudget hc hb hops
  have hcounts := runFrom_counts threshold cancelled items 0 initialBudget hc hb hops
  exact ⟨hu, hcounts.1, hcounts.2⟩

/-- A 100-item batch in which exactly the item at submission index 37
always fails; every item's calls leave the reported budget at 50. -/
def c2Items : List (BatchOp Nat) :=
  (List.range 100).map
    (fun i => if i = 37 then ⟨Except.error "boom", 50⟩ else ⟨Except.ok i, 50⟩)

/-- Witness for C2: one always-failing item among 100 yields 99
successes and 1 failure, and the batch completes (nothing is left
unattempted). -/
theorem c2_fail_soft_witness :
    (batchRun 5 100 (fun _ => false) c2Items).unattempted = [] ∧
    (batchRun 5 100 (fun _ => false) c2Items).failures.length = 1 ∧
    (batchRun 5 100 (fun _ => false) c2Items).successes.length = 99 := by
  have h := c2_fail_soft 5 100 (fun _ => false) c2Items
    (fun _ => rfl) (by decide) (by decide)
  refine ⟨h.1, ?_, ?_⟩
  · rw [h.2.1]; decide
  · rw [h.2.2]; decide

/-- C3: admission checks cancellation and the threshold before every
item, and once either condition is observed no further item is ever
dispatched (third conjunct); in particular if the first item's
completion leaves the reported budget below the threshold, items after
the first are all unattempted and successes/failures cover only the
first item. -/
theorem c3_halt_on_low_budget (threshold initialBudget : Int) (cancelled : Nat → Bool)
    {α : Type} (first : BatchOp α) (rest : List (BatchOp α))
    (hc0 : cancelled 0 = false) (hb : threshold ≤ initialBudget)
    (hlow : first.reportedBudget < threshold) :
    (batchRun threshold initialBudget cancelled (first :: rest)).unattempted =
      List.range' 1 rest.length ∧
    (batchRun threshold initialBudget cancelled (first :: rest)).successes.map Prod.fst ++
      (batchRun threshold initialBudget cancelled (first :: rest)).failures.map Prod.fst =
      [0] ∧
    (∀ (i : Nat) (budget : Int) (ops : List (BatchOp α)),
      cancelled i = true ∨ budget < threshold →
      runFrom threshold cancelled α i budget ops = ⟨[], [], List.range' i ops.length⟩) := by
  have hnot : ¬(cancelled 0 = true ∨ initialBudget < threshold) := by
    rw [hc0]; simp; omega
  have hh := runFrom_halted threshold cancelled 1 first.reportedBudget rest (Or.inr hlow)
  refine ⟨?_, ?_, fun i budget ops h => runFrom_halted threshold cancelled i budget ops h⟩
  · simp only [batchRun, runFrom, if_neg hnot, hh]
    cases hr : first.result <;> simp [hr]
  · simp only [batchRun, runFrom, if_neg hnot, hh]
    cases hr : first.result <;> simp [hr]

/-- Witness for C3: threshold 10, budget reported as 9 after the first
of 5 items completes; items 2–5 never start (unattempted count 4) and
successes/failures together cover only the first item. -/
theorem c3_halt_on_low_budget_witness :
    (batchRun 10 100 (fun _ => false)
      [BatchOp.mk (Except.ok 0) 9, BatchOp.mk (Except.ok 1) 40,
       BatchOp.mk (Except.ok 2) 40, BatchOp.mk (Except.ok 3) 40,
       BatchOp.mk (Except.ok 4) 40]).unattempted = [1, 2, 3, 4] ∧
    (batchRun 10 100 (fun _ => false)
      [BatchOp.mk (Except.ok 0) 9, BatchOp.mk (Except.ok 1) 40,
       BatchOp.mk (Except.ok 2) 40, BatchOp.mk (Except.ok 3) 40,
       BatchOp.mk (Except.ok 4) 40]).successes.map Prod.fst ++
    (batchRun 10 100 (fun _ => false)
      [BatchOp.mk (Except.ok 0) 9, BatchOp.mk (Except.ok 1) 40,
       BatchOp.mk (Except.ok 2) 40, BatchOp.mk (Except.ok 3) 40,
       BatchOp.mk (Except.ok 4) 40]).failures.map Prod.fst = [0] := by
  have h := c3_halt_on_low_budget 10 100 (fun _ => false)
    (BatchOp.mk (Except.ok 0) 9)
    [BatchOp.mk (Except.ok 1) 40, BatchOp.mk (Except.ok 2) 40,
     BatchOp.mk (Except.ok 3) 40, BatchOp.mk (Except.ok 4) 40]
    rfl (by decide) (by decide)
  exact ⟨by rw [h.1]; decide, h.2.1⟩

/-! ## Rate Budget Tracker and Single-Call Invoker (modelled from the
spec, §4.1–4.2) -/

/-- Modelled from the spec: the Rate Budget Tracker, a shared holder of
the remaining permitted API calls. -/
structure Tracker where
  remaining : Int
  deriving DecidableEq

/-- Modelled from the spec: `Tracker.Update` refreshes the tracked value
from the budget figure the remote service reported with a response. -/
def Tracker.update (_ : Tracker) (newValue : Int) : Tracker :=
  ⟨newValue⟩

/-- Modelled from the spec: the outcome of one HTTP round trip as the
Single-Call Invoker observes it — either a response was obtained (whose
body decodes to the expected entity or to a remote error, and whose
metadata carries the server-reported remaining budget), or the
transport failed and no response exists at all. -/
inductive RoundTrip (α : Type) where
  | response (body : Except String α) (budgetRemaining : Int)
  | transportFailure (msg : String)

/-- A round trip completed, i.e. a response was obtained (possibly an
error response). -/
def RoundTrip.completed {α : Type} : RoundTrip α → Bool
  | .response _ _ => true
  | .transportFailure _ => false

/-- Modelled from the spec: the Single-Call Invoker.  It performs the
round trip, and on any obtained response — successful or error — it
extracts the server-reported remaining budget and calls
`Tracker.update` with it; on a transport-level failure there is no
response and the tracker is not touched.  The result records the
decoded value or error, the tracker afterwards, and the list of
`Tracker.update` calls that were performed (each entry the value passed
to one call). -/
def invoke {α : Type} (t : Tracker) : RoundTrip α → Except String α × Tracker × List Int
  | .response body budget => (body, t.update budget, [budget])
  | .transportFailure msg => (Except.error ("transport failure: " ++ msg), t, [])

/-- C4: the Single-Call Invoker updates the shared budget exactly once
per completed round trip — including on error responses carrying budget
metadata — and on a transport-level failure (no response) it performs
no update and leaves the tracked budget value unchanged. -/
theorem c4_invoker_updates_once {α : Type} (t : Tracker) (rt : RoundTrip α) :
    (rt.completed = true → (invoke t rt).2.2.length = 1) ∧
    (rt.completed = false →
      (invoke t rt).2.2 = [] ∧ (invoke t rt).2.1 = t) := by
  cases rt with
  | response body budget => exact ⟨fun _ => rfl, fun h => by simp [RoundTrip.completed] at h⟩
  | transportFailure msg => exact ⟨fun h => by simp [RoundTrip.completed] at h, fun _ => ⟨rfl, rfl⟩⟩

/-- Witness for C4: a completed round trip that is an error response
still updates the budget exactly once, and a transport failure leaves
the tracker at its prior value with no update performed. -/
theorem c4_invoker_updates_once_witness :
    (invoke (α := Nat) ⟨50⟩ (RoundTrip.response (Except.error "404") 42)).2.2.length = 1 ∧
    (invoke (α := Nat) ⟨50⟩ (RoundTrip.transportFailure "timeout")).2.1 = ⟨50⟩ :=
  ⟨(c4_invoker_updates_once ⟨50⟩ (RoundTrip.response (Except.error "404") 42)).1 rfl,
   ((c4_invoker_updates_once (α := Nat) ⟨50⟩ (RoundTrip.transportFailure "timeout")).2 rfl).2⟩

/-- Modelled from the spec: the remote service holds the real budget —
the count of API operations still permitted.  Each completed call
consumes some non-negative number of permitted operations and the
response reports the new remaining count; the budget is never restored
within a run.  Given the starting remote budget and the per-call
consumption, this yields the remaining-budget figure reported with each
successive completed call of the run. -/
def reportedBudgets (b : Int) : List Nat → List Int
  | [] => []
  | cost :: rest => (b - cost) :: reportedBudgets (b - cost) rest

/-- The tracker value sampled after each `Tracker.update` performed with
the successive reported values. -/
def samplesAfterUpdates (t : Tracker) : List Int → List Int
  | [] => []
  | v :: rest =>
    let t' := t.update v
    t'.remaining :: samplesAfterUpdates t' rest

theorem reportedBudgets_chain (b : Int) (costs : List Nat) :
    List.Chain' (fun x y => y ≤ x) (reportedBudgets b costs) ∧
    ∀ x ∈ reportedBudgets b costs, x ≤ b := by
  induction costs generalizing b with
  | nil => simp [reportedBudgets]
  | cons cost rest ih =>
    have h := ih (b - cost)
    refine ⟨List.chain'_cons'.2 ⟨?_, h.1⟩, ?_⟩
    · intro y hy
      have := h.2 y (List.mem_of_mem_head? hy)
      omega
    · intro x hx
      rcases List.mem_cons.1 hx with h1 | h2
      · omega
      · have := h.2 x h2
        omega

/-- C5: across any sequence of completed calls within a run, the
tracker value sampled after each `Tracker.update` is monotonically
non-increasing: no step of the run ever increments it. -/
theorem c5_budget_monotone (t : Tracker) (b : Int) (costs : List Nat) :
    List.Chain' (fun x y => y ≤ x)
      (samplesAfterUpdates t (reportedBudgets b costs)) := by
  have hsamples : ∀ (t' : Tracker) (vs : List Int), samplesAfterUpdates t' vs = vs := by
    intro t' vs
    induction vs generalizing t' with
    | nil => rfl
    | cons v rest ih => simp [samplesAfterUpdates, Tracker.update, ih]
  rw [hsamples]
  exact (reportedBudgets_chain b costs).1

/-! ## Access Checker and entry-point control flow (`main.go`) -/

/-- Modelled from the spec: the Access Checker issues one verifying call
per required read/write path and fails with an access-denied error
naming the first unreachable path.  `reachable` is the observed
per-path outcome of those verifying calls (`false` for e.g. a 403);
the result is `some p` with `p` the first unreachable required path, or
`none` when the credential can reach every required path. -/
def checkAPIandKey (reachable : String → Bool) (readPaths writePaths : List String) :
    Option String :=
  (readPaths ++ writePaths).find? (fun p => !reachable p)

/-- Observable events of the tail of `main` (main.go), in order. -/
inductive MainEvent where
  | accessCheck
  | subRun
  | fatal (msg : String)
  deriving DecidableEq

/-- Whether a `main` event is the access check. -/
def isAccessCheck : MainEvent → Bool
  | .accessCheck => true
  | _ => false

/-- Whether a `main` event is the subcommand batch run. -/
def isSubRun : MainEvent → Bool
  | .subRun => true
  | _ => false

/-- Embedding of the tail of `main` (main.go lines 149–171): after flag
validation the client is constructed and `CheckAPIandKey` is invoked;
a non-nil error from it is fatal and the subcommand `Run` is never
invoked; otherwise the subcommand runs, and its non-nil error is in
turn fatal. -/
def mainFlow (reachable : String → Bool) (readPaths writePaths : List String)
    (runErr : Option String) : List MainEvent :=
  MainEvent.accessCheck ::
    match checkAPIandKey reachable readPaths writePaths with
    | some p => [MainEvent.fatal ("API access check failed, access denied: " ++ p)]
    | none =>
      MainEvent.subRun ::
        match runErr with
        | some e => [MainEvent.fatal e]
        | none => []

/-- C7: the access check is the first event of every run and occurs
exactly once; and whenever some required path is unreachable,
`CheckAPIandKey` returns a non-nil error naming an unreachable required
path and the subcommand batch run is never invoked. -/
theorem c7_access_check_gates_run (reachable : String → Bool)
    (readPaths writePaths : List String) (runErr : Option String) :
    (mainFlow reachable readPaths writePaths runErr).countP isAccessCheck = 1 ∧
    (mainFlow reachable readPaths writePaths runErr).head? = some MainEvent.accessCheck ∧
    (∀ p ∈ readPaths ++ writePaths, reachable p = false →
      (∃ q, checkAPIandKey reachable readPaths writePaths = some q ∧
        q ∈ readPaths ++ writePaths ∧ reachable q = false) ∧
      ∀ e ∈ mainFlow reachable readPaths writePaths runErr, isSubRun e = false) := by
  refine ⟨?_, rfl, ?_⟩
  · unfold mainFlow
    cases hc : checkAPIandKey reachable readPaths writePaths with
    | some p => simp [List.countP_cons, isAccessCheck]
    | none =>
      cases runErr with
      | some e => simp [List.countP_cons, isAccessCheck]
      | none => simp [List.countP_cons, isAccessCheck]
  · intro p hp hpr
    have hsome : (checkAPIandKey reachable readPaths writePaths).isSome := by
      rw [checkAPIandKey, List.find?_isSome]
      exact ⟨p, hp, by simp [hpr]⟩
    obtain ⟨q, hq⟩ := Option.isSome_iff_exists.1 hsome
    have hqmem : q ∈ readPaths ++ writePaths := List.mem_of_find?_eq_some hq
    have hqfalse : reachable q = false := by
      have := List.find?_some hq
      simpa using this
    refine ⟨⟨q, hq, hqmem, hqfalse⟩, ?_⟩
    intro e he
    unfold mainFlow at he
    rw [hq] at he
    rcases List.mem_cons.1 he with h | h
    · rw [h]; rfl
    · rcases List.mem_cons.1 h with h2 | h2
      · rw [h2]; rfl
      · simp at h2

/-- Witness for C7: the cancel-requests subcommand declares read access
to the configuration path and write access to the bibs path; a
credential for which the bibs write path is unreachable (a simulated
403) makes `CheckAPIandKey` name that path, and the subcommand is never
run. -/
theorem c7_access_check_gates_run_witness :
    checkAPIandKey (fun p => p == "/almaws/v1/conf")
      ["/almaws/v1/conf"] ["/almaws/v1/bibs"] = some "/almaws/v1/bibs" ∧
    ∀ e ∈ mainFlow (fun p => p == "/almaws/v1/conf")
      ["/almaws/v1/conf"] ["/almaws/v1/bibs"] none, isSubRun e = false := by
  have h := (c7_access_check_gates_run (fun p => p == "/almaws/v1/conf")
    ["/almaws/v1/conf"] ["/almaws/v1/bibs"] none).2.2
    "/almaws/v1/bibs" (by decide) (by decide)
  exact ⟨by decide, h.2⟩

/-! ## The items-cancel-requests subcommand (package `cancelrequests`)

Embedded from the source (`Config`'s `Run` closure).  The api package
entities are value snapshots; Go field named `Type` is rendered
`stype`/`rtype` because `Type` is reserved in Lean. -/

/-- An Alma set (fields the subcommand reads: `Name`, `ID`, `Type`,
`Content`). -/
structure SetEntity where
  id : String
  name : String
  stype : String
  content : String
  deriving DecidableEq

/-- A member of a set (opaque to the subcommand beyond its link). -/
structure Member where
  link : String
  deriving DecidableEq

/-- A user request (fields the subcommand reads: `Link`, `Type`,
`SubType`). -/
structure UserRequest where
  link : String
  rtype : String
  rsubtype : String
  deriving DecidableEq

/-- The API client as observed at the `Run` closure's call sites: the
values each client method returns during this run.  The client
internals are outside this source tree; `Run`'s control flow depends
only on these results. -/
structure ClientOracle where
  setResult : Except String SetEntity
  members : List Member
  memberErrs : List String
  requests : List UserRequest
  requestErrs : List String
  cancel : List UserRequest → List UserRequest × List String

/-- The error values the `Run` closure can return, keeping the count
each summary error carries. -/
inductive RunError where
  | setResolve (msg : String)
  | notItemizedItems
  | memberListErrs (n : Nat)
  | requestListErrs (n : Nat)
  | cancelReqErrs (n : Nat)
  deriving DecidableEq

/-- The observables of one execution of the `Run` closure: the CSV rows
written (header included), whether `UserRequestsCancel` was invoked,
the error slice it returned, the cancelled count logged at the end (or
`none` if the run returned before that log line), and the returned
error. -/
structure RunOutput where
  rows : List (List String)
  cancelCalled : Bool
  cancelErrs : List String
  loggedCancelledCount : Option Nat
  result : Option RunError
  deriving DecidableEq

/-- The CSV header row the `Run` closure writes. -/
def headerRow : List String :=
  ["Request Link", "Request Type", "Request Subtype",
   "Matched type and subtype", "Cancelled in Alma"]

/-- The yes/no cell values of the report. -/
def yesNo (b : Bool) : String := if b then "yes" else "no"

/-- Membership in the `matchingMap`/`cancelledMap` of the source, which
are keyed by request link. -/
def linkIn (l : String) (rs : List UserRequest) : Bool :=
  rs.any (fun r => r.link == l)

/-- One data row of the report: link, type, subtype, whether the
request matched the type/subtype filter, and whether it was cancelled
in Alma. -/
def requestRow (matching cancelled : List UserRequest) (r : UserRequest) : List String :=
  [r.link, r.rtype, r.rsubtype,
   yesNo (linkIn r.link matching), yesNo (linkIn r.link cancelled)]

/-- Embedding of the `Run` closure of the items-cancel-requests
subcommand.  `matchFn` is the type/subtype filter
(`UserRequest.MatchTypeSubType` applied to the flag values; its
definition lives in the api package outside this source tree, so it is
a parameter here).  CSV writes are modelled as infallible appends. -/
def runCancelRequests (dryrun : Bool) (matchFn : UserRequest → Bool)
    (c : ClientOracle) : RunOutput :=
  match c.setResult with
  | .error e => ⟨[], false, [], none, some (RunError.setResolve e)⟩
  | .ok set =>
    if set.stype ≠ "ITEMIZED" ∨ set.content ≠ "ITEM" then
      ⟨[], false, [], none, some RunError.notItemizedItems⟩
    else if c.memberErrs ≠ [] then
      ⟨[], false, [], none, some (RunError.memberListErrs c.memberErrs.length)⟩
    else if c.requestErrs ≠ [] then
      ⟨[], false, [], none, some (RunError.requestListErrs c.requestErrs.length)⟩
    else
      let matching := c.requests.filter matchFn
      let cr := if dryrun then (([], []) : List UserRequest × List String)
                else c.cancel matching
      ⟨headerRow :: c.requests.map (requestRow matching cr.1),
       !dryrun, cr.2, some cr.1.length,
       if cr.2 ≠ [] then some (RunError.cancelReqErrs cr.2.length) else none⟩

theorem runCancelRequests_report (dryrun : Bool) (matchFn : UserRequest → Bool)
    (c : ClientOracle) (set : SetEntity)
    (cancelled : List UserRequest) (errs : List String)
    (hset : c.setResult = Except.ok set)
    (htype : set.stype = "ITEMIZED") (hcontent : set.content = "ITEM")
    (hm : c.memberErrs = []) (hr : c.requestErrs = [])
    (hcr : (if dryrun then (([], []) : List UserRequest × List String)
            else c.cancel (c.requests.filter matchFn)) = (cancelled, errs)) :
    runCancelRequests dryrun matchFn c =
      ⟨headerRow :: c.requests.map (requestRow (c.requests.filter matchFn) cancelled),
       !dryrun, errs, some cancelled.length,
       if errs ≠ [] then some (RunError.cancelReqErrs errs.length) else none⟩ := by
  have hcond : ¬(set.stype ≠ "ITEMIZED" ∨ set.content ≠ "ITEM") := by
    simp [htype, hcontent]
  simp only [runCancelRequests, hset, if_neg hcond, if_neg (by simp [hm] :
    ¬c.memberErrs ≠ []), if_neg (by simp [hr] : ¬c.requestErrs ≠ []), hcr]

/-- A run in which the member-listing bulk method returns one succeeded
member together with one error. -/
def c8AbortOracle : ClientOracle where
  setResult := Except.ok ⟨"112233", "TestSet", "ITEMIZED", "ITEM"⟩
  members := [⟨"m1"⟩]
  memberErrs := ["HTTP 500 while fetching page 2"]
  requests := [⟨"r1", "WORK_ORDER", "SORT"⟩]
  requestErrs := []
  cancel := fun m => (m, [])

/-- Counterexample to C8 as stated: here the `SetMembers` bulk method
invocation has a non-empty error slice and one succeeded member, yet
the subcommand does not continue producing report rows from what
succeeded — it returns the membership summary error with no rows
written at all. -/
theorem c8_counterexample :
    c8AbortOracle.memberErrs ≠ [] ∧
    c8AbortOracle.members ≠ [] ∧
    (runCancelRequests false (fun _ => true) c8AbortOracle).rows = [] ∧
    (runCancelRequests false (fun _ => true) c8AbortOracle).result =
      some (RunError.memberListErrs 1) := by
  refine ⟨by decide, by decide, by decide, by decide⟩

/-- C8 (amended): only for the bulk cancellation method does a
non-empty error slice leave the output intact — the run still writes
the header and one report row per request and finishes with a final
error summarizing the failure count; for the member-listing and
request-listing bulk methods, a non-empty error slice aborts the run
with a summary error before any report rows are produced. -/
theorem c8_partial_failure_reporting (dryrun : Bool) (matchFn : UserRequest → Bool)
    (c : ClientOracle) (set : SetEntity)
    (cancelled : List UserRequest) (errs : List String)
    (hset : c.setResult = Except.ok set)
    (htype : set.stype = "ITEMIZED") (hcontent : set.content = "ITEM")
    (hcr : (if dryrun then (([], []) : List UserRequest × List String)
            else c.cancel (c.requests.filter matchFn)) = (cancelled, errs)) :
    (c.memberErrs ≠ [] →
      (runCancelRequests dryrun matchFn c).rows = [] ∧
      (runCancelRequests dryrun matchFn c).result =
        some (RunError.memberListErrs c.memberErrs.length)) ∧
    (c.memberErrs = [] → c.requestErrs ≠ [] →
      (runCancelRequests dryrun matchFn c).rows = [] ∧
      (runCancelRequests dryrun matchFn c).result =
        some (RunError.requestListErrs c.requestErrs.length)) ∧
    (c.memberErrs = [] → c.requestErrs = [] →
      (runCancelRequests dryrun matchFn c).rows =
        headerRow :: c.requests.map
          (requestRow (c.requests.filter matchFn) cancelled) ∧
      (runCancelRequests dryrun matchFn c).result =
        (if errs ≠ [] then some (RunError.cancelReqErrs errs.length) else none)) := by
  have hcond : ¬(set.stype ≠ "ITEMIZED" ∨ set.content ≠ "ITEM") := by
    simp [htype, hcontent]
  refine ⟨?_, ?_, ?_⟩
  · intro hm
    simp only [runCancelRequests, hset, if_neg hcond, if_pos hm]
    constructor <;> trivial
  · intro hm hreq
    simp only [runCancelRequests, hset, if_neg hcond,
      if_neg (by simp [hm] : ¬c.memberErrs ≠ []), if_pos hreq]
    constructor <;> trivial
  · intro hm hreq
    rw [runCancelRequests_report dryrun matchFn c set cancelled errs
      hset htype hcontent hm hreq hcr]
    exact ⟨rfl, rfl⟩

/-- A run in which the bulk cancellation method cancels the first of
two matching requests and reports one error for the second. -/
def c8CancelOracle : ClientOracle where
  setResult := Except.ok ⟨"112233", "TestSet", "ITEMIZED", "ITEM"⟩
  members := [⟨"m1"⟩, ⟨"m2"⟩]
  memberErrs := []
  requests := [⟨"r1", "WORK_ORDER", "SORT"⟩, ⟨"r2", "WORK_ORDER", "SORT"⟩]
  requestErrs := []
  cancel := fun m => (m.take 1, ["cancel failed for r2"])

/-- Witness for C8 (amended): with one cancellation error among two
requests, the run still writes the header plus both report rows and
returns the summary error counting one cancellation failure. -/
theorem c8_partial_failure_reporting_witness :
    (runCancelRequests false (fun _ => true) c8CancelOracle).rows.length = 3 ∧
    (runCancelRequests false (fun _ => true) c8CancelOracle).result =
      some (RunError.cancelReqErrs 1) := by
  have h := (c8_partial_failure_reporting false (fun _ => true) c8CancelOracle
    ⟨"112233", "TestSet", "ITEMIZED", "ITEM"⟩
    [⟨"r1", "WORK_ORDER", "SORT"⟩] ["cancel failed for r2"]
    rfl rfl rfl (by decide)).2.2 rfl rfl
  refine ⟨?_, ?_⟩
  · rw [h.1]; rfl
  · rw [h.2]; rfl

theorem yesNo_eq_yes (b : Bool) : yesNo b = "yes" ↔ b = true := by
  cases b <;> decide

theorem linkIn_iff (l : String) (rs : List UserRequest) :
    linkIn l rs = true ↔ ∃ r ∈ rs, r.link = l := by
  simp [linkIn]

/-- C9: in every run that reaches the reporting stage, the report
contains one row per fetched request, and a row's "Cancelled in Alma"
column is "yes" exactly when that request's link appears among the
results returned by the bulk cancel method for this run (the empty
collection when the cancel step was skipped). -/
theorem c9_cancelled_column (dryrun : Bool) (matchFn : UserRequest → Bool)
    (c : ClientOracle) (set : SetEntity)
    (cancelled : List UserRequest) (errs : List String)
    (hset : c.setResult = Except.ok set)
    (htype : set.stype = "ITEMIZED") (hcontent : set.content = "ITEM")
    (hm : c.memberErrs = []) (hr : c.requestErrs = [])
    (hcr : (if dryrun then (([], []) : List UserRequest × List String)
            else c.cancel (c.requests.filter matchFn)) = (cancelled, errs)) :
    (runCancelRequests dryrun matchFn c).rows =
      headerRow :: c.requests.map
        (requestRow (c.requests.filter matchFn) cancelled) ∧
    ∀ r ∈ c.requests,
      ((requestRow (c.requests.filter matchFn) cancelled r).get? 4 = some "yes" ↔
        ∃ cr ∈ cancelled, cr.link = r.link) := by
  refine ⟨?_, ?_⟩
  · rw [runCancelRequests_report dryrun matchFn c set cancelled errs
      hset htype hcontent hm hr hcr]
  · intro r _
    have hget : (requestRow (c.requests.filter matchFn) cancelled r).get? 4 =
        some (yesNo (linkIn r.link cancelled)) := rfl
    rw [hget, Option.some_inj]
    exact (yesNo_eq_yes _).trans (linkIn_iff r.link cancelled)

/-- A run in which the bulk cancel method succeeds for the first of two
requests only. -/
def c9Oracle : ClientOracle where
  setResult := Except.ok ⟨"445566", "TestSet", "ITEMIZED", "ITEM"⟩
  members := [⟨"m1"⟩]
  memberErrs := []
  requests := [⟨"r1", "HOLD", "SORT"⟩, ⟨"r2", "HOLD", "SORT"⟩]
  requestErrs := []
  cancel := fun m => (m.take 1, [])

/-- Witness for C9: the request whose cancel call returned success gets
"yes" in the "Cancelled in Alma" column, and the one absent from the
cancelled results gets a row whose column is not "yes". -/
theorem c9_cancelled_column_witness :
    (requestRow (c9Oracle.requests.filter (fun _ => true))
      [⟨"r1", "HOLD", "SORT"⟩] ⟨"r1", "HOLD", "SORT"⟩).get? 4 = some "yes" ∧
    ¬((requestRow (c9Oracle.requests.filter (fun _ => true))
      [⟨"r1", "HOLD", "SORT"⟩] ⟨"r2", "HOLD", "SORT"⟩).get? 4 = some "yes") := by
  have h := (c9_cancelled_column false (fun _ => true) c9Oracle
    ⟨"445566", "TestSet", "ITEMIZED", "ITEM"⟩
    [⟨"r1", "HOLD", "SORT"⟩] [] rfl rfl rfl rfl rfl (by decide)).2
  refine ⟨?_, ?_⟩
  · exact (h ⟨"r1", "HOLD", "SORT"⟩ (by decide)).2 ⟨⟨"r1", "HOLD", "SORT"⟩, by decide, rfl⟩
  · intro hy
    obtain ⟨cr, hcr1, hcr2⟩ := (h ⟨"r2", "HOLD", "SORT"⟩ (by decide)).1 hy
    rcases List.mem_singleton.1 hcr1 with rfl
    simp at hcr2

/-- C10: under the dryrun flag the bulk cancellation method is never
invoked, the cancellation error slice is empty, the logged cancelled
count is zero whenever the run reaches the log line, every report row
other than the header carries "no" in the "Cancelled in Alma" column,
and the run never returns the cancellation-errors summary — regardless
of the filter and of the client's responses. -/
theorem c10_dryrun_no_cancel (matchFn : UserRequest → Bool) (c : ClientOracle) :
    (runCancelRequests true matchFn c).cancelCalled = false ∧
    (runCancelRequests true matchFn c).cancelErrs = [] ∧
    ((runCancelRequests true matchFn c).loggedCancelledCount = none ∨
      (runCancelRequests true matchFn c).loggedCancelledCount = some 0) ∧
    (∀ row ∈ (runCancelRequests true matchFn c).rows,
      row = headerRow ∨ row.get? 4 = some "no") ∧
    (∀ n, (runCancelRequests true matchFn c).result ≠
      some (RunError.cancelReqErrs n)) := by
  cases hs : c.setResult with
  | error e => simp [runCancelRequests, hs]
  | ok set =>
    by_cases h1 : set.stype ≠ "ITEMIZED" ∨ set.content ≠ "ITEM"
    · simp [runCancelRequests, hs, h1]
    · by_cases h2 : c.memberErrs ≠ []
      · simp [runCancelRequests, hs, h1, h2]
      · by_cases h3 : c.requestErrs ≠ []
        · simp [runCancelRequests, hs, h1, h2, h3]
        · have h1' : set.stype = "ITEMIZED" ∧ set.content = "ITEM" := by
            simpa using h1
          have hout := runCancelRequests_report true matchFn c set [] []
            hs h1'.1 h1'.2 (by simpa using h2) (by simpa using h3) rfl
          rw [hout]
          refine ⟨rfl, rfl, Or.inr rfl, ?_, ?_⟩
          · intro row hrow
            rcases List.mem_cons.1 hrow with h | h
            · exact Or.inl h
            · right
              obtain ⟨r, _, rfl⟩ := List.mem_map.1 h
              rfl
          · intro n
            simp

/-- A run with one matching request, whose client would report an error
if the cancel method were ever invoked. -/
def c10Oracle : ClientOracle where
  setResult := Except.ok ⟨"778899", "TestSet", "ITEMIZED", "ITEM"⟩
  members := [⟨"m1"⟩]
  memberErrs := []
  requests := [⟨"r9", "HOLD", "SORT"⟩]
  requestErrs := []
  cancel := fun m => (m, ["must never be invoked"])

/-- Witness for C10: a dryrun over one matching request never calls the
cancel method, produces no cancellation errors, and its single data row
carries "no" in the "Cancelled in Alma" column. -/
theorem c10_dryrun_no_cancel_witness :
    (runCancelRequests true (fun _ => true) c10Oracle).cancelCalled = false ∧
    (runCancelRequests true (fun _ => true) c10Oracle).cancelErrs = [] ∧
    (["r9", "HOLD", "SORT", "yes", "no"] = headerRow ∨
      (["r9", "HOLD", "SORT", "yes", "no"] : List String).get? 4 = some "no") := by
  have h := c10_dryrun_no_cancel (fun _ => true) c10Oracle
  exact ⟨h.1, h.2.1, h.2.2.2.1 ["r9", "HOLD", "SORT", "yes", "no"] (by decide)⟩

end AlmaToolkit
